import Mathlib

/-!
Verification development for the `autobrrctl` administrative CLI
(`migrate`, `resetDB`, `seedDB` and the `main` dispatcher).

The Go source is shallowly embedded as pure Lean functions.  Database
responses (row streams, per-statement execution results, commit results,
file contents) are supplied by explicit environments; the control flow,
error classification, transaction bookkeeping and logging of the source
are translated statement by statement.  Calls the source makes that can
only fail for environmental reasons outside every property under study
(`rows.Scan`, `tx.Prepare`, `tx.Begin` for the re-opened transaction) are
modelled as succeeding; every modelled failure path (`log.Fatalf`,
rollback-and-return) is represented by a distinct constructor of the
corresponding result type.
-/

namespace Autobrrctl

/-! ## Models of the Go standard-library primitives used by the tool -/

/-- Model of `strings.HasPrefix` on character lists: does the second list
start with the first? -/
def leadMatch : List Char → List Char → Bool
  | [], _ => true
  | _ :: _, [] => false
  | a :: as, b :: bs => a == b && leadMatch as bs

/-- Model of `strings.Contains _ pat` scanning over a character list. -/
def strContainsAux (pat : List Char) : List Char → Bool
  | [] => leadMatch pat []
  | c :: rest => leadMatch pat (c :: rest) || strContainsAux pat rest

/-- Model of Go `strings.Contains s pat`. -/
def strContains (s pat : String) : Bool := strContainsAux pat.data s.data

/-- Model of Go `strings.Split s sep` for a one-character separator:
splits at every occurrence of the separator, keeping empty fragments. -/
def stringsSplitAux (sep : Char) : List Char → List Char → List String
  | [], acc => [⟨acc.reverse⟩]
  | c :: rest, acc =>
    if c = sep then ⟨acc.reverse⟩ :: stringsSplitAux sep rest []
    else stringsSplitAux sep rest (c :: acc)

/-- Model of Go `strings.Split s ";"` (as called by `seedDB`). -/
def stringsSplitSemi (s : String) : List String := stringsSplitAux ';' s.data []

/-- The drivers registered by the program's imports:
`_ "github.com/lib/pq"` registers `postgres` and
`_ "github.com/mattn/go-sqlite3"` registers `sqlite3`. -/
def registeredDrivers : List String := ["postgres", "sqlite3"]

/-- Model of `database/sql.Open`: an unregistered driver name fails
immediately; for a registered driver no connection is attempted yet. -/
def sqlOpen (driver : String) : Except String Unit :=
  if registeredDrivers.contains driver then .ok ()
  else .error ("sql: unknown driver \"" ++ driver ++ "\" (forgotten import?)")

/-- Driver name requested by `migrate` for the source store. -/
def migrateSourceDriver : String := "sqlite3"

/-- Driver name requested by `migrate` for the destination store. -/
def migrateDestDriver : String := "postgres"

/-- Driver name requested by `resetDB`. -/
def resetDriver : String := "sqlite"

/-- Driver name requested by `seedDB`. -/
def seedDriver : String := "sqlite"

/-! ## Statement builder (`migrate`, the `colNames`/`colPlaceholders` loop) -/

/-- `fmt.Sprintf("$%d", i+1)` for the 0-based loop index `i`. -/
def placeholderFor (i : Nat) : String := "$" ++ toString (i + 1)

/-- The loop
`for i, col := range columns { colNames += col.Name(); colPlaceholders += fmt.Sprintf("$%d", i+1); if i < len(columns)-1 { colNames += ", "; colPlaceholders += ", " } }`
with `n = len(columns)` and the two accumulators threaded explicitly. -/
def buildColsLoop (n : Nat) : List String → Nat → String → String → String × String
  | [], _, colNames, colPlaceholders => (colNames, colPlaceholders)
  | col :: rest, i, colNames, colPlaceholders =>
    if i < n - 1 then
      buildColsLoop n rest (i + 1) (colNames ++ col ++ ", ")
        (colPlaceholders ++ placeholderFor i ++ ", ")
    else
      buildColsLoop n rest (i + 1) (colNames ++ col) (colPlaceholders ++ placeholderFor i)

/-- `fmt.Sprintf("INSERT INTO %s (%s) VALUES (%s)", table, colNames, colPlaceholders)`
where the two interior strings come from the builder loop run over the
introspected column list. -/
def buildInsert (table : String) (cols : List String) : String :=
  let p := buildColsLoop cols.length cols 0 "" ""
  "INSERT INTO " ++ table ++ " (" ++ p.1 ++ ") VALUES (" ++ p.2 ++ ")"

/-- Comma-separated rendering `<x1>, <x2>, …, <xn>` of a list, as written
in the specification of the statement builder. -/
def commaJoin : List String → String
  | [] => ""
  | [s] => s
  | s :: rest => s ++ ", " ++ commaJoin rest

/-- The positional placeholders `$(i+1), $(i+2), …` — `k` of them starting
at 0-based index `i`. -/
def placeholdersFrom (i : Nat) : Nat → List String
  | 0 => []
  | k + 1 => placeholderFor i :: placeholdersFrom (i + 1) k

/-! ## Migrate engine -/

/-- Result of one destination-side statement execution (`Exec`/`Commit`). -/
inductive ExecResult where
  | ok : ExecResult
  | err : String → ExecResult
deriving DecidableEq

def ExecResult.isOk : ExecResult → Bool
  | .ok => true
  | .err _ => false

/-- The error-message substring `migrate` matches to classify a
foreign-key violation. -/
def fkViolationText : String := "violates foreign key constraint"

/-- Log lines emitted by `migrate`, kept structurally:
`failedInsertValues` is the `log.Printf` that names the table and echoes
the row's values, `skippingRow` the `log.Printf` that only carries the
driver error, `migratedTable` the per-table completion line. -/
inductive LogEvent (α : Type) where
  | failedInsertValues : String → α → LogEvent α
  | skippingRow : String → LogEvent α
  | migratedTable : String → LogEvent α
deriving DecidableEq

/-- Outcome of copying one table: `done committedRows log` after the final
`tx.Commit`, or `fatal` for any `log.Fatalf` path (which exits the process
without committing the open transaction). -/
inductive TableResult (α : Type) where
  | done : List α → List (LogEvent α) → TableResult α
  | fatal : List (LogEvent α) → String → TableResult α
deriving DecidableEq

/-- The `for rows.Next()` loop of `migrate` for one table, followed by the
end-of-table `tx.Commit`.  `pending` holds the rows inserted on the
currently open (uncommitted) transaction.  A foreign-key violation logs
the two lines, rolls back (discarding `pending`), opens a fresh
transaction and continues; any other insert error is `log.Fatalf`.
`commitRes` is the destination's response to the final commit. -/
def runTableLoop {α : Type} (table : String) (commitRes : ExecResult) :
    List (α × ExecResult) → List α → List (LogEvent α) → TableResult α
  | [], pending, lg =>
    match commitRes with
    | .ok => .done pending (lg ++ [.migratedTable table])
    | .err m => .fatal lg m
  | (row, res) :: rest, pending, lg =>
    match res with
    | .ok => runTableLoop table commitRes rest (pending ++ [row]) lg
    | .err m =>
      if strContains m fkViolationText then
        runTableLoop table commitRes rest []
          (lg ++ [.failedInsertValues table row, .skippingRow m])
      else
        .fatal lg m

/-- The destination's behaviour during a `migrate` run: for each table the
stream of scanned source rows paired with the destination's response to
that row's `INSERT`, and the response to the end-of-table commit. -/
structure MigrateEnv (α : Type) where
  rowsOf : String → List (α × ExecResult)
  commitResult : String → ExecResult

/-- Outcome of a whole `migrate` run: durably committed `(table, row)`
pairs and the log, with `fatal` for any `log.Fatalf` exit. -/
inductive RunResult (α : Type) where
  | ok : List (String × α) → List (LogEvent α) → RunResult α
  | fatal : List (String × α) → List (LogEvent α) → String → RunResult α
deriving DecidableEq

/-- The `tables` list of `migrate`, in source order. -/
def migrateTables : List String :=
  ["users", "indexer", "irc_network", "irc_channel", "client", "filter", "action",
   "notification", "filter_indexer", "release", "release_action_status", "feed", "api_key"]

/-- The `for _, table := range tables` loop of `migrate`. -/
def migrateLoop {α : Type} (env : MigrateEnv α) :
    List String → List (String × α) → List (LogEvent α) → RunResult α
  | [], committed, lg => .ok committed lg
  | t :: ts, committed, lg =>
    match runTableLoop t (env.commitResult t) (env.rowsOf t) [] lg with
    | .done pending lg2 =>
        migrateLoop env ts (committed ++ pending.map (fun r => (t, r))) lg2
    | .fatal lg2 m => .fatal committed lg2 m

/-- `migrate`: open the two stores, then copy every table of the catalog. -/
def migrate {α : Type} (env : MigrateEnv α) : RunResult α :=
  match sqlOpen migrateSourceDriver with
  | .error m => .fatal [] [] m
  | .ok _ =>
    match sqlOpen migrateDestDriver with
    | .error m => .fatal [] [] m
    | .ok _ => migrateLoop env migrateTables [] []

def runCommitted {α : Type} : RunResult α → List (String × α)
  | .ok c _ => c
  | .fatal c _ _ => c

def runLog {α : Type} : RunResult α → List (LogEvent α)
  | .ok _ lg => lg
  | .fatal _ lg _ => lg

def runOk {α : Type} : RunResult α → Bool
  | .ok _ _ => true
  | .fatal _ _ _ => false

/-- The rows durably committed for one table during a run. -/
def committedFor {α : Type} (committed : List (String × α)) (t : String) : List α :=
  (committed.filter (fun p => p.1 == t)).map Prod.snd

/-- Did this row's insert fail with a foreign-key violation? -/
def isFKfailure {α : Type} (p : α × ExecResult) : Bool :=
  match p.2 with
  | .ok => false
  | .err m => strContains m fkViolationText

/-- Did this row's insert fail with an error `migrate` treats as fatal? -/
def isFatalFailure {α : Type} (p : α × ExecResult) : Bool :=
  match p.2 with
  | .ok => false
  | .err m => !strContains m fkViolationText

def hasFK {α : Type} (l : List (α × ExecResult)) : Bool := l.any isFKfailure

/-- The suffix of the row stream strictly after the last foreign-key
failure (the whole stream when there is none). -/
def afterLastFK {α : Type} : List (α × ExecResult) → List (α × ExecResult)
  | [] => []
  | p :: rest =>
    if hasFK rest then afterLastFK rest
    else if isFKfailure p then rest else p :: rest

/-- The rows of a stream whose insert succeeded. -/
def okRowsOf {α : Type} (l : List (α × ExecResult)) : List α :=
  (l.filter (fun p => p.2.isOk)).map Prod.fst

/-- Is this log line a skipped-row message naming table `t`?  Of the two
lines logged per skipped row only `failedInsertValues` carries the table
name. -/
def isSkipNaming {α : Type} (t : String) : LogEvent α → Bool
  | .failedInsertValues u _ => u == t
  | _ => false

def skipMsgCount {α : Type} (lg : List (LogEvent α)) (t : String) : Nat :=
  (lg.filter (isSkipNaming t)).length

/-- Table names carried by the per-table completion lines, in log order. -/
def migratedNames {α : Type} (lg : List (LogEvent α)) : List String :=
  lg.filterMap (fun ev =>
    match ev with
    | .migratedTable u => some u
    | _ => none)

def concatMap {β : Type} (f : String → List β) : List String → List β
  | [] => []
  | t :: ts => f t ++ concatMap f ts

/-! ## Reset engine -/

/-- The destination's behaviour during `resetDB`: responses to the
`DELETE FROM`, to the `sqlite_sequence` update, and to the commit. -/
structure ResetEnv where
  deleteResult : String → ExecResult
  seqResult : String → ExecResult
  commitResult : ExecResult

/-- Outcome of `resetDB`: `rolledBack table err` is the `log.Printf` +
`tx.Rollback()` + plain `return` path (the process does not exit there);
`fatalOpen`/`fatalCommit` are the `log.Fatalf` paths. -/
inductive ResetResult where
  | fatalOpen : String → ResetResult
  | rolledBack : String → String → ResetResult
  | fatalCommit : String → ResetResult
  | committed : ResetResult
deriving DecidableEq

/-- The `tables` list of `resetDB`, in source order. -/
def resetTables : List String :=
  ["action", "api_key", "client", "feed", "feed_cache", "filter", "filter_indexer",
   "indexer", "irc_channel", "irc_network", "notification", "release",
   "release_action_status", "users"]

/-- The error-message substring `resetDB` tolerates on the
`sqlite_sequence` update (the sequence table does not exist). -/
def noSuchTableText : String := "no such table"

/-- The per-table loop of `resetDB` followed by the final commit. -/
def resetLoop (env : ResetEnv) : List String → ResetResult
  | [] =>
    match env.commitResult with
    | .ok => .committed
    | .err m => .fatalCommit m
  | t :: ts =>
    match env.deleteResult t with
    | .err m => .rolledBack t m
    | .ok =>
      match env.seqResult t with
      | .err m =>
        if strContains m noSuchTableText then resetLoop env ts else .rolledBack t m
      | .ok => resetLoop env ts

/-- `resetDB`: open the store, then clear every table in one transaction. -/
def resetDB (env : ResetEnv) : ResetResult :=
  match sqlOpen resetDriver with
  | .error m => .fatalOpen m
  | .ok _ => resetLoop env resetTables

/-- SQL statements `resetDB` issues, kept structurally. -/
inductive ResetSQL where
  | deleteFrom : String → ResetSQL
  | resetSeq : String → ResetSQL
deriving DecidableEq

/-- The statements the reset loop passes to `tx.Exec`, including the
failing one. -/
def resetLoopSQL (env : ResetEnv) : List String → List ResetSQL
  | [] => []
  | t :: ts =>
    match env.deleteResult t with
    | .err _ => [.deleteFrom t]
    | .ok =>
      match env.seqResult t with
      | .err m =>
        if strContains m noSuchTableText then
          .deleteFrom t :: .resetSeq t :: resetLoopSQL env ts
        else [.deleteFrom t, .resetSeq t]
      | .ok => .deleteFrom t :: .resetSeq t :: resetLoopSQL env ts

/-- The statements a `resetDB` call executes against the store. -/
def resetExecutedSQL (env : ResetEnv) : List ResetSQL :=
  match sqlOpen resetDriver with
  | .error _ => []
  | .ok _ => resetLoopSQL env resetTables

/-- Tables whose clearing became durable: only a committed reset clears
anything — every other outcome rolled the single transaction back. -/
def resetCleared : ResetResult → List String
  | .committed => resetTables
  | _ => []

/-- Does the outcome correspond to a `log.Fatalf` (non-zero process exit)
inside `resetDB` itself? -/
def resetFatalExit : ResetResult → Bool
  | .fatalOpen _ => true
  | .fatalCommit _ => true
  | _ => false

/-! ## Seed engine and the `main` dispatcher's `db:seed` case -/

/-- The environment of `seedDB`: the file system and the destination's
responses to statement execution and commit. -/
structure SeedEnv where
  readFile : String → Except String String
  execResult : String → ExecResult
  commitResult : ExecResult

/-- Outcome of `seedDB`: `rolledBack` is the `log.Printf` +
`tx.Rollback()` + plain `return` path; the `fatal*` constructors are the
`log.Fatalf` paths. -/
inductive SeedResult where
  | fatalRead : String → SeedResult
  | fatalOpen : String → SeedResult
  | rolledBack : String → SeedResult
  | fatalCommit : String → SeedResult
  | committed : SeedResult
deriving DecidableEq

/-- The `for _, cmd := range sqlCommands` loop of `seedDB`: the first
failing `tx.Exec` aborts with that error. -/
def seedLoop (exec : String → ExecResult) : List String → Except String Unit
  | [] => .ok ()
  | c :: cs =>
    match exec c with
    | .ok => seedLoop exec cs
    | .err m => .error m

/-- The fragments the seed loop passes to `tx.Exec`, in order, including
the failing one. -/
def seedExecuted (exec : String → ExecResult) : List String → List String
  | [] => []
  | c :: cs =>
    match exec c with
    | .ok => c :: seedExecuted exec cs
    | .err _ => [c]

/-- Statements whose effects became durable: only when every fragment
executed and the final commit succeeded; otherwise the single transaction
was rolled back (or never committed). -/
def seedCommitted (exec : String → ExecResult) (commitRes : ExecResult) (script : String) :
    List String :=
  match seedLoop exec (stringsSplitSemi script) with
  | .error _ => []
  | .ok _ =>
    match commitRes with
    | .err _ => []
    | .ok => stringsSplitSemi script

/-- Observable trace of one `seedDB` call: the path handed to
`ioutil.ReadFile`, the `sql.Open` attempt `(driver, path)` if reached, the
fragments passed to `tx.Exec`, and the outcome. -/
structure SeedTrace where
  readPath : String
  openAttempt : Option (String × String)
  executedSQL : List String
  result : SeedResult
deriving DecidableEq

/-- `seedDB(seedDBPath, dbPath)`: read the script at `seedDBPath`, open
the store at `dbPath`, split on every `;`, execute each fragment in one
transaction, commit. -/
def seedDB (env : SeedEnv) (seedDBPath dbPath : String) : SeedTrace :=
  match env.readFile seedDBPath with
  | .error m => ⟨seedDBPath, none, [], .fatalRead m⟩
  | .ok script =>
    match sqlOpen seedDriver with
    | .error m => ⟨seedDBPath, some (seedDriver, dbPath), [], .fatalOpen m⟩
    | .ok _ =>
      match seedLoop env.execResult (stringsSplitSemi script) with
      | .error m =>
          ⟨seedDBPath, some (seedDriver, dbPath),
            seedExecuted env.execResult (stringsSplitSemi script), .rolledBack m⟩
      | .ok _ =>
        match env.commitResult with
        | .err m =>
            ⟨seedDBPath, some (seedDriver, dbPath),
              seedExecuted env.execResult (stringsSplitSemi script), .fatalCommit m⟩
        | .ok =>
            ⟨seedDBPath, some (seedDriver, dbPath),
              seedExecuted env.execResult (stringsSplitSemi script), .committed⟩

/-- Does the outcome correspond to a `log.Fatalf` (non-zero process exit)
inside `seedDB`? -/
def seedFatalExit : SeedResult → Bool
  | .fatalRead _ => true
  | .fatalOpen _ => true
  | .fatalCommit _ => true
  | _ => false

/-- Outcome of `main`'s `db:seed` case. -/
inductive MainSeedResult where
  | usageExit : MainSeedResult
  | ran : SeedTrace → MainSeedResult
deriving DecidableEq

/-- `main`'s `db:seed` case: `seedDBPath := flag.Arg(1)`,
`dbPath := flag.Arg(2)`, empty-argument checks, then
`seedDB(seedDBPath, dbPath)` — no reset stage. -/
def mainDbSeed (env : SeedEnv) (arg1 arg2 : String) : MainSeedResult :=
  if arg1 = "" then .usageExit
  else if arg2 = "" then .usageExit
  else .ran (seedDB env arg1 arg2)

/-- The line of the `usage` constant documenting `db:seed` (argument
order: database path first, seed-script path second). -/
def usageSeedLine : String :=
  "  db:seed             <path-to-database> <seed-path>  Seed the sqlite database"

/-! ## Concrete environments used by counterexamples and witnesses -/

/-- Migrate environment for the C1 counterexample: table `client` has two
rows, the second violates a foreign key; every other table is empty. -/
def exEnvC1 : MigrateEnv Nat :=
  { rowsOf := fun u => if u = "client" then [(1, .ok), (2, .err fkViolationText)] else []
    commitResult := fun _ => .ok }

/-- Migrate environment for the C1 witness: table `client` has two rows,
the first violates a foreign key. -/
def exEnvC1w : MigrateEnv Nat :=
  { rowsOf := fun u => if u = "client" then [(5, .err fkViolationText), (7, .ok)] else []
    commitResult := fun _ => .ok }

/-- Reset environment whose `DELETE FROM action` fails. -/
def resetEnvBad : ResetEnv :=
  { deleteResult := fun t => if t = "action" then .err "database is locked" else .ok
    seqResult := fun _ => .ok
    commitResult := .ok }

/-- Reset environment whose sequence update for `api_key` reports a
missing `sqlite_sequence` table. -/
def resetEnvTol : ResetEnv :=
  { deleteResult := fun _ => .ok
    seqResult := fun t => if t = "api_key" then .err "no such table: sqlite_sequence" else .ok
    commitResult := .ok }

/-- Seed environment whose fragment `BAD` fails to execute. -/
def seedEnvBad : SeedEnv :=
  { readFile := fun _ => .ok "INSERT INTO users VALUES (1);BAD"
    execResult := fun c => if c = "BAD" then .err "near BAD: syntax error" else .ok
    commitResult := .ok }

/-- Seed environment for the `db:seed` argument-order bug: only
`seed.sql` exists as a readable script. -/
def seedEnvBug : SeedEnv :=
  { readFile := fun p =>
      if p = "seed.sql" then .ok "INSERT INTO users VALUES (1);"
      else .error ("open " ++ p ++ ": no such file or directory")
    execResult := fun _ => .ok
    commitResult := .ok }

/-! ## Helper lemmas -/

theorem placeholdersFrom_eq_range :
    ∀ (k i : Nat), placeholdersFrom i k = (List.range' i k).map placeholderFor := by
  intro k
  induction k with
  | zero => intro i; simp [placeholdersFrom]
  | succ k ih => intro i; simp [placeholdersFrom, List.range'_succ, ih]

theorem buildColsLoop_join (n : Nat) :
    ∀ (l : List String) (i : Nat) (a b : String), i + l.length = n →
      buildColsLoop n l i a b =
        (a ++ commaJoin l, b ++ commaJoin (placeholdersFrom i l.length)) := by
  intro l
  induction l with
  | nil =>
    intro i a b _
    simp [buildColsLoop, commaJoin, placeholdersFrom]
  | cons c rest ih =>
    intro i a b h
    match rest with
    | [] =>
      have hi : ¬ i < n - 1 := by simp at h; omega
      simp [buildColsLoop, hi, commaJoin, placeholdersFrom]
    | d :: t =>
      have hi : i < n - 1 := by simp at h; omega
      have h2 : (i + 1) + (d :: t).length = n := by simp at h ⊢; omega
      have step : buildColsLoop n (c :: d :: t) i a b
          = buildColsLoop n (d :: t) (i + 1) (a ++ c ++ ", ") (b ++ placeholderFor i ++ ", ") := by
        simp [buildColsLoop, hi]
      rw [step, ih (i + 1) (a ++ c ++ ", ") (b ++ placeholderFor i ++ ", ") h2]
      simp [commaJoin, placeholdersFrom, String.append_assoc]

theorem runTableLoop_ok_rows {α : Type} (t : String) (cr : ExecResult) :
    ∀ (l₁ l₂ : List (α × ExecResult)) (pending : List α) (lg : List (LogEvent α)),
      (∀ p ∈ l₁, p.2 = .ok) →
      runTableLoop t cr (l₁ ++ l₂) pending lg =
        runTableLoop t cr l₂ (pending ++ l₁.map Prod.fst) lg := by
  intro l₁
  induction l₁ with
  | nil => intro l₂ pending lg _; simp
  | cons p rest ih =>
    obtain ⟨r, res⟩ := p
    intro l₂ pending lg h
    have hr : res = .ok := h (r, res) (by simp)
    subst hr
    have := ih l₂ (pending ++ [r]) lg (fun q hq => h q (by simp [hq]))
    simp [runTableLoop, this]

theorem runTableLoop_all_ok {α : Type} (t : String) :
    ∀ (l : List (α × ExecResult)) (pending : List α) (lg : List (LogEvent α)),
      (∀ p ∈ l, p.2 = .ok) →
      runTableLoop t .ok l pending lg =
        .done (pending ++ l.map Prod.fst) (lg ++ [.migratedTable t]) := by
  intro l pending lg h
  have := runTableLoop_ok_rows t .ok l [] pending lg h
  simpa [runTableLoop] using this

theorem runTableLoop_fk_step {α : Type} (t : String) (cr : ExecResult) (r : α) (m : String)
    (rest : List (α × ExecResult)) (pending : List α) (lg : List (LogEvent α))
    (h : strContains m fkViolationText = true) :
    runTableLoop t cr ((r, .err m) :: rest) pending lg =
      runTableLoop t cr rest [] (lg ++ [.failedInsertValues t r, .skippingRow m]) := by
  simp [runTableLoop, h]

theorem hasFK_false_afterLastFK {α : Type} :
    ∀ l : List (α × ExecResult), hasFK l = false → afterLastFK l = l := by
  intro l
  induction l with
  | nil => intro _; simp [afterLastFK]
  | cons p rest _ =>
    intro h
    have h1 : isFKfailure p = false := by
      by_contra hc
      simp [hasFK] at h
      exact absurd (h.1) (by simpa using hc)
    have h2 : hasFK rest = false := by
      simp [hasFK] at h ⊢
      exact h.2
    simp [afterLastFK, h1, h2]

theorem runTableLoop_noFatal {α : Type} (t : String) :
    ∀ (rows : List (α × ExecResult)) (pending : List α) (lg : List (LogEvent α)),
      (∀ p ∈ rows, isFatalFailure p = false) →
      ∃ lg2, runTableLoop t .ok rows pending lg =
        .done (if hasFK rows then okRowsOf (afterLastFK rows) else pending ++ okRowsOf rows)
          lg2 := by
  intro rows
  induction rows with
  | nil =>
    intro pending lg _
    exact ⟨lg ++ [.migratedTable t], by simp [runTableLoop, hasFK, okRowsOf]⟩
  | cons p rest ih =>
    obtain ⟨r, res⟩ := p
    intro pending lg hnf
    have hrest : ∀ q ∈ rest, isFatalFailure q = false :=
      fun q hq => hnf q (by simp [hq])
    match res with
    | .ok =>
      obtain ⟨lg2, h2⟩ := ih (pending ++ [r]) lg hrest
      refine ⟨lg2, ?_⟩
      have hstep : runTableLoop t .ok ((r, .ok) :: rest) pending lg =
          runTableLoop t .ok rest (pending ++ [r]) lg := by simp [runTableLoop]
      rw [hstep, h2]
      have hfk : hasFK ((r, ExecResult.ok) :: rest) = hasFK rest := by
        simp [hasFK, isFKfailure]
      by_cases hf : hasFK rest
      · simp [hfk, hf, afterLastFK]
      · simp only [hf, if_neg, Bool.false_eq_true, hfk, if_false]
        have : okRowsOf ((r, ExecResult.ok) :: rest) = r :: okRowsOf rest := by
          simp [okRowsOf, ExecResult.isOk]
        simp [this]
    | .err m =>
      have hm : strContains m fkViolationText = true := by
        have := hnf (r, .err m) (by simp)
        simpa [isFatalFailure] using this
      obtain ⟨lg2, h2⟩ := ih [] (lg ++ [.failedInsertValues t r, .skippingRow m]) hrest
      refine ⟨lg2, ?_⟩
      rw [runTableLoop_fk_step t .ok r m rest pending lg hm, h2]
      have hfkc : isFKfailure ((r, ExecResult.err m)) = true := by
        simp [isFKfailure, hm]
      have hfk : hasFK ((r, ExecResult.err m) :: rest) = true := by
        simp [hasFK]; exact Or.inl (by simpa [isFKfailure] using hm)
      by_cases hf : hasFK rest
      · simp [hfk, hf, afterLastFK]
      · have hrw : afterLastFK ((r, ExecResult.err m) :: rest) = rest := by
          simp [afterLastFK, hf, hfkc]
        simp [hfk, hf, hrw, hasFK_false_afterLastFK rest (by simpa using hf)]

theorem migrateLoop_collect {α : Type} (env : MigrateEnv α) (c : String → List α)
    (e : String → List (LogEvent α)) :
    ∀ (ts : List String) (committed : List (String × α)) (lg : List (LogEvent α)),
      (∀ t ∈ ts, ∀ lg0 : List (LogEvent α),
        runTableLoop t (env.commitResult t) (env.rowsOf t) [] lg0 = .done (c t) (lg0 ++ e t)) →
      migrateLoop env ts committed lg =
        .ok (committed ++ concatMap (fun t => (c t).map (fun r => (t, r))) ts)
          (lg ++ concatMap e ts) := by
  intro ts
  induction ts with
  | nil => intro committed lg _; simp [migrateLoop, concatMap]
  | cons t ts ih =>
    intro committed lg h
    have ht := h t (by simp) lg
    have hrest : ∀ u ∈ ts, ∀ lg0 : List (LogEvent α),
        runTableLoop u (env.commitResult u) (env.rowsOf u) [] lg0 = .done (c u) (lg0 ++ e u) :=
      fun u hu => h u (by simp [hu])
    rw [show migrateLoop env (t :: ts) committed lg =
        migrateLoop env ts (committed ++ (c t).map (fun r => (t, r))) (lg ++ e t) from by
      simp [migrateLoop, ht]]
    rw [ih (committed ++ (c t).map (fun r => (t, r))) (lg ++ e t) hrest]
    simp [concatMap]

theorem committedFor_append {α : Type} (a b : List (String × α)) (t : String) :
    committedFor (a ++ b) t = committedFor a t ++ committedFor b t := by
  simp [committedFor, List.filter_append]

theorem tagged_filter_ne {α : Type} (u t : String) (hu : u ≠ t) (l : List α) :
    committedFor (l.map (fun r => (u, r))) t = [] := by
  induction l with
  | nil => simp [committedFor]
  | cons x xs ih =>
    simp only [committedFor, List.map_cons, List.filter_cons] at *
    have : (u == t) = false := by simpa using hu
    simpa [this] using ih

theorem tagged_filter_eq {α : Type} (t : String) (l : List α) :
    committedFor (l.map (fun r => (t, r))) t = l := by
  induction l with
  | nil => simp [committedFor]
  | cons x xs ih =>
    simp only [committedFor, List.map_cons, List.filter_cons] at *
    simpa using ih

theorem committedFor_concatMap_not_mem {α : Type} (c : String → List α) (t : String) :
    ∀ ts : List String, t ∉ ts →
      committedFor (concatMap (fun u => (c u).map (fun r => (u, r))) ts) t = [] := by
  intro ts
  induction ts with
  | nil => intro _; simp [concatMap, committedFor]
  | cons u ts ih =>
    intro hmem
    have hu : u ≠ t := fun e => hmem (by simp [e])
    have ht : t ∉ ts := fun h2 => hmem (by simp [h2])
    rw [concatMap, committedFor_append, tagged_filter_ne u t hu, ih ht]
    rfl

theorem committedFor_concatMap {α : Type} (c : String → List α) (t : String) :
    ∀ ts : List String, ts.Nodup → t ∈ ts →
      committedFor (concatMap (fun u => (c u).map (fun r => (u, r))) ts) t = c t := by
  intro ts
  induction ts with
  | nil => intro _ h; simp at h
  | cons u ts ih =>
    intro hnd hmem
    rcases List.mem_cons.mp hmem with rfl | hmem2
    · have ht : t ∉ ts := (List.nodup_cons.mp hnd).1
      rw [concatMap, committedFor_append, tagged_filter_eq,
        committedFor_concatMap_not_mem c t ts ht, List.append_nil]
    · have hu : u ≠ t := by
        rintro rfl
        exact (List.nodup_cons.mp hnd).1 hmem2
      rw [concatMap, committedFor_append, tagged_filter_ne u t hu,
        ih (List.nodup_cons.mp hnd).2 hmem2, List.nil_append]

theorem skipFilter_concatMap_not_mem {α : Type} (e : String → List (LogEvent α)) (t : String) :
    ∀ ts : List String,
      (∀ u ∈ ts, u ≠ t → (e u).filter (isSkipNaming t) = []) →
      t ∉ ts →
      (concatMap e ts).filter (isSkipNaming t) = [] := by
  intro ts
  induction ts with
  | nil => intro _ _; simp [concatMap]
  | cons u ts ih =>
    intro h hmem
    have hu : u ≠ t := fun e2 => hmem (by simp [e2])
    have ht : t ∉ ts := fun h2 => hmem (by simp [h2])
    rw [concatMap, List.filter_append, h u (by simp) hu,
      ih (fun v hv => h v (by simp [hv])) ht, List.append_nil]

theorem skipFilter_concatMap {α : Type} (e : String → List (LogEvent α)) (t : String) :
    ∀ ts : List String, ts.Nodup → t ∈ ts →
      (∀ u ∈ ts, u ≠ t → (e u).filter (isSkipNaming t) = []) →
      (concatMap e ts).filter (isSkipNaming t) = (e t).filter (isSkipNaming t) := by
  intro ts
  induction ts with
  | nil => intro _ h; simp at h
  | cons u ts ih =>
    intro hnd hmem h
    rcases List.mem_cons.mp hmem with rfl | hmem2
    · have ht : t ∉ ts := (List.nodup_cons.mp hnd).1
      rw [concatMap, List.filter_append,
        skipFilter_concatMap_not_mem e t ts (fun v hv => h v (by simp [hv])) ht,
        List.append_nil]
    · have hu : u ≠ t := by
        rintro rfl
        exact (List.nodup_cons.mp hnd).1 hmem2
      rw [concatMap, List.filter_append, h u (by simp) hu,
        ih (List.nodup_cons.mp hnd).2 hmem2 (fun v hv => h v (by simp [hv])),
        List.nil_append]

theorem migrate_eq_loop {α : Type} (env : MigrateEnv α) :
    migrate env = migrateLoop env migrateTables [] [] := rfl

theorem sqlOpen_sqlite :
    sqlOpen "sqlite" = .error "sql: unknown driver \"sqlite\" (forgotten import?)" := rfl

theorem migratedNames_append {α : Type} (a b : List (LogEvent α)) :
    migratedNames (a ++ b) = migratedNames a ++ migratedNames b := by
  simp [migratedNames]

theorem runTableLoop_done_names {α : Type} (t : String) (cr : ExecResult) :
    ∀ (rows : List (α × ExecResult)) (pending p : List α) (lg lg2 : List (LogEvent α)),
      runTableLoop t cr rows pending lg = .done p lg2 →
      migratedNames lg2 = migratedNames lg ++ [t] := by
  intro rows
  induction rows with
  | nil =>
    intro pending p lg lg2 h
    cases cr with
    | ok =>
      simp [runTableLoop] at h
      rw [← h.2, migratedNames_append]
      simp [migratedNames]
    | err m => simp [runTableLoop] at h
  | cons q rest ih =>
    obtain ⟨r, res⟩ := q
    intro pending p lg lg2 h
    match res with
    | .ok =>
      exact ih (pending ++ [r]) p lg lg2 (by simpa [runTableLoop] using h)
    | .err m =>
      by_cases hf : strContains m fkViolationText
      · have h2 := ih [] p (lg ++ [.failedInsertValues t r, .skippingRow m]) lg2
          (by rw [← runTableLoop_fk_step t cr r m rest pending lg hf]; exact h)
        rw [h2, migratedNames_append]
        simp [migratedNames]
      · simp [runTableLoop, hf] at h

theorem migrateLoop_ok_names {α : Type} (env : MigrateEnv α) :
    ∀ (ts : List String) (committed cf : List (String × α)) (lg lgf : List (LogEvent α)),
      migrateLoop env ts committed lg = .ok cf lgf →
      migratedNames lgf = migratedNames lg ++ ts := by
  intro ts
  induction ts with
  | nil =>
    intro committed cf lg lgf h
    simp [migrateLoop] at h
    rw [← h.2]
    simp
  | cons t ts ih =>
    intro committed cf lg lgf h
    cases hres : runTableLoop t (env.commitResult t) (env.rowsOf t) [] lg with
    | done p lg2 =>
      simp only [migrateLoop] at h
      rw [hres] at h
      have h3 := ih (committed ++ p.map (fun r => (t, r))) cf lg2 lgf h
      rw [h3, runTableLoop_done_names t (env.commitResult t) (env.rowsOf t) [] p lg lg2 hres]
      simp
    | fatal lg2 m =>
      simp only [migrateLoop] at h
      rw [hres] at h
      simp at h

theorem seedLoop_error_of_mem (exec : String → ExecResult) :
    ∀ l : List String, (∃ c ∈ l, (exec c).isOk = false) →
      ∃ m, seedLoop exec l = .error m := by
  intro l
  induction l with
  | nil => rintro ⟨c, hc, _⟩; simp at hc
  | cons c cs ih =>
    rintro ⟨d, hd, hdf⟩
    cases hres : exec c with
    | ok =>
      rcases List.mem_cons.mp hd with rfl | hd2
      · rw [hres] at hdf
        simp [ExecResult.isOk] at hdf
      · obtain ⟨m, hm⟩ := ih ⟨d, hd2, hdf⟩
        exact ⟨m, by simp [seedLoop, hres, hm]⟩
    | err m2 => exact ⟨m2, by simp [seedLoop, hres]⟩

theorem seedExecuted_all_ok (exec : String → ExecResult) :
    ∀ l : List String, (∀ c ∈ l, exec c = .ok) → seedExecuted exec l = l := by
  intro l
  induction l with
  | nil => intro _; simp [seedExecuted]
  | cons c cs ih =>
    intro h
    have hc := h c (by simp)
    simp [seedExecuted, hc, ih (fun d hd => h d (by simp [hd]))]

/-! ## Claims -/

/-- C7: the statement builder is a pure deterministic function which, on a
non-empty introspected column list `c1..cn`, produces exactly the text
`INSERT INTO <table> (<c1>, …, <cn>) VALUES ($1, …, $n)`, keeping the
columns in introspection order. -/
theorem buildInsert_spec (table : String) (cols : List String) (hne : cols ≠ []) :
    buildInsert table cols =
      "INSERT INTO " ++ table ++ " (" ++ commaJoin cols ++ ") VALUES ("
        ++ commaJoin ((List.range cols.length).map placeholderFor) ++ ")" := by
  have h0 : (0 : Nat) + cols.length = cols.length := by omega
  have hb := buildColsLoop_join cols.length cols 0 "" "" h0
  have hr : (List.range cols.length).map placeholderFor = placeholdersFrom 0 cols.length := by
    rw [placeholdersFrom_eq_range cols.length 0, List.range_eq_range']
  simp [buildInsert, hb, hr]

/-- Witness for C7 at a concrete table and column list. -/
theorem buildInsert_spec_witness :
    buildInsert "users" ["id", "username", "password"] =
      "INSERT INTO users (" ++ commaJoin ["id", "username", "password"] ++ ") VALUES ("
        ++ commaJoin ((List.range 3).map placeholderFor) ++ ")" ∧
    buildInsert "users" ["id", "username", "password"] =
      "INSERT INTO users (id, username, password) VALUES ($1, $2, $3)" := by
  refine ⟨?_, by decide⟩
  have h := buildInsert_spec "users" ["id", "username", "password"] (by decide)
  simpa using h

/-- C9: the migrate catalog is exactly the thirteen enumerated tables in
that order, every completed migrate run's per-table completion lines list
exactly those tables in that order, and the reset catalog is the same set
of tables plus `feed_cache`. -/
theorem catalog_tables :
    migrateTables =
      ["users", "indexer", "irc_network", "irc_channel", "client", "filter", "action",
       "notification", "filter_indexer", "release", "release_action_status", "feed", "api_key"]
  ∧ (∀ (α : Type) (env : MigrateEnv α) (committed : List (String × α)) (lg : List (LogEvent α)),
       migrate env = .ok committed lg → migratedNames lg = migrateTables)
  ∧ List.Perm resetTables ("feed_cache" :: migrateTables) := by
  refine ⟨rfl, ?_, by decide⟩
  intro α env committed lg h
  rw [migrate_eq_loop] at h
  have h2 := migrateLoop_ok_names env migrateTables [] committed [] lg h
  simpa [migratedNames] using h2

/-- Witness for C9: a run over an empty source store completes and its
completion lines list the catalog in order. -/
theorem catalog_tables_witness :
    migratedNames (migrateTables.map (LogEvent.migratedTable (α := Nat))) = migrateTables :=
  catalog_tables.2.1 Nat ⟨fun _ => [], fun _ => .ok⟩ []
    (migrateTables.map (LogEvent.migratedTable (α := Nat))) (by decide)

/-- C3: on a row whose insert fails with a foreign-key violation the two
skip lines are logged, the current transaction is rolled back (pending
rows discarded), a brand-new transaction is opened and the loop continues
with the next row of the same table; on any other insert error the whole
run aborts fatally at once and the row is not retried. -/
theorem migrate_row_error_policy {α : Type}
    (t : String) (cr : ExecResult) (r : α) (m : String)
    (rest : List (α × ExecResult)) (pending : List α) (lg : List (LogEvent α)) :
    (strContains m fkViolationText = true →
      runTableLoop t cr ((r, .err m) :: rest) pending lg =
        runTableLoop t cr rest [] (lg ++ [.failedInsertValues t r, .skippingRow m]))
  ∧ (strContains m fkViolationText = false →
      runTableLoop t cr ((r, .err m) :: rest) pending lg = .fatal lg m) := by
  constructor <;> intro h <;> simp [runTableLoop, h]

/-- Witness for C3 at concrete rows: one foreign-key violation (skipped,
loop continues) and one connectivity error (fatal). -/
theorem migrate_row_error_policy_witness :
    (runTableLoop "users" .ok [((1 : Nat), .err fkViolationText), (2, .ok)] [9] [] =
      runTableLoop "users" .ok [((2 : Nat), .ok)] []
        ([] ++ [.failedInsertValues "users" 1, .skippingRow fkViolationText]))
  ∧ (runTableLoop "users" .ok [((1 : Nat), .err "connection reset"), (2, .ok)] [9] [] =
      .fatal [] "connection reset") :=
  ⟨(migrate_row_error_policy "users" .ok (1 : Nat) fkViolationText [(2, .ok)] [9] []).1
      (by decide),
   (migrate_row_error_policy "users" .ok (1 : Nat) "connection reset" [(2, .ok)] [9] []).2
      (by decide)⟩

/-- C2: a rollback triggered by a row's foreign-key violation discards
every row successfully inserted since the table's transaction was last
(re)opened (the pending list restarts empty), and consequently a table
whose stream contains no fatal error commits exactly the successfully
inserted rows after its last foreign-key failure. -/
theorem migrate_commits_successes_after_last_fk {α : Type}
    (t : String) (r : α) (m : String) (rest : List (α × ExecResult))
    (pending : List α) (lg : List (LogEvent α)) (cr : ExecResult) :
    (strContains m fkViolationText = true →
      runTableLoop t cr ((r, .err m) :: rest) pending lg =
        runTableLoop t cr rest [] (lg ++ [.failedInsertValues t r, .skippingRow m]))
  ∧ (∀ rows : List (α × ExecResult), (∀ p ∈ rows, isFatalFailure p = false) →
      ∃ lg2, runTableLoop t .ok rows [] [] = .done (okRowsOf (afterLastFK rows)) lg2) := by
  constructor
  · intro h
    exact runTableLoop_fk_step t cr r m rest pending lg h
  · intro rows hnf
    obtain ⟨lg2, h2⟩ := runTableLoop_noFatal t rows [] [] hnf
    refine ⟨lg2, ?_⟩
    rw [h2]
    by_cases hf : hasFK rows
    · simp [hf]
    · have hb : hasFK rows = false := by simpa using hf
      rw [hasFK_false_afterLastFK rows hb]
      simp [hb]

/-- Witness for C2 at concrete rows. -/
theorem migrate_commits_successes_after_last_fk_witness :
    (runTableLoop "users" .ok [((1 : Nat), .err fkViolationText)] [9] [] =
      runTableLoop "users" .ok [] []
        ([] ++ [.failedInsertValues "users" 1, .skippingRow fkViolationText]))
  ∧ (∃ lg2, runTableLoop "users" .ok
      [((1 : Nat), .ok), (2, .err fkViolationText), (3, .ok)] [] [] =
      .done (okRowsOf (afterLastFK [((1 : Nat), .ok), (2, .err fkViolationText), (3, .ok)]))
        lg2) :=
  ⟨(migrate_commits_successes_after_last_fk "users" (1 : Nat) fkViolationText [] [9] [] .ok).1
      (by decide),
   (migrate_commits_successes_after_last_fk "users" (1 : Nat) fkViolationText [] [9] [] .ok).2
      [((1 : Nat), .ok), (2, .err fkViolationText), (3, .ok)] (by decide)⟩

/-- C1 is false as stated: table `client` has N = 2 rows of which exactly
one (the second) violates a foreign key and every other insert succeeds,
yet the completed run durably commits 0 rows of `client`, not N − 1 = 1 —
the mid-table rollback discarded the first, successfully inserted row. -/
theorem migrate_single_fk_counterexample :
    (exEnvC1.rowsOf "client").length = 2
  ∧ ((exEnvC1.rowsOf "client").filter isFKfailure).length = 1
  ∧ (∀ p ∈ exEnvC1.rowsOf "client", isFKfailure p = true ∨ p.2 = .ok)
  ∧ runOk (migrate exEnvC1) = true
  ∧ skipMsgCount (runLog (migrate exEnvC1)) "client" = 1
  ∧ (committedFor (runCommitted (migrate exEnvC1)) "client").length = 0
  ∧ ¬ (committedFor (runCommitted (migrate exEnvC1)) "client").length =
        (exEnvC1.rowsOf "client").length - 1 := by
  decide

/-- C1 (amended): in a migrate run where table `t`'s stream has exactly
one foreign-key-violating row and every other insert and commit succeeds,
the run completes, the rows durably committed for `t` are exactly the rows
after the violating one (those before it are lost to the rollback), and
exactly one skipped-row message naming `t` is logged. -/
theorem migrate_single_fk_commits_suffix {α : Type}
    (env : MigrateEnv α) (t : String) (pre post : List (α × ExecResult)) (r : α) (m : String)
    (ht : t ∈ migrateTables)
    (hrows : env.rowsOf t = pre ++ (r, .err m) :: post)
    (hfk : strContains m fkViolationText = true)
    (hpre : ∀ p ∈ pre, p.2 = .ok)
    (hpost : ∀ p ∈ post, p.2 = .ok)
    (hothers : ∀ u ∈ migrateTables, u ≠ t → ∀ p ∈ env.rowsOf u, p.2 = .ok)
    (hcommit : ∀ u ∈ migrateTables, env.commitResult u = .ok) :
    ∃ committed lg, migrate env = .ok committed lg
      ∧ committedFor committed t = post.map Prod.fst
      ∧ skipMsgCount lg t = 1 := by
  have hnodup : migrateTables.Nodup := by decide
  have hrun : ∀ u ∈ migrateTables, ∀ lg0 : List (LogEvent α),
      runTableLoop u (env.commitResult u) (env.rowsOf u) [] lg0 =
        .done ((fun u => if u = t then post.map Prod.fst else (env.rowsOf u).map Prod.fst) u)
          (lg0 ++ (fun u =>
            if u = t then
              [LogEvent.failedInsertValues t r, LogEvent.skippingRow m,
                LogEvent.migratedTable t]
            else [LogEvent.migratedTable u]) u) := by
    intro u hu lg0
    by_cases heq : u = t
    · subst heq
      rw [hcommit u hu, hrows, runTableLoop_ok_rows u .ok pre ((r, .err m) :: post) [] lg0 hpre,
        runTableLoop_fk_step u .ok r m post ([] ++ pre.map Prod.fst) lg0 hfk]
      have hfin := runTableLoop_all_ok u post []
        (lg0 ++ [LogEvent.failedInsertValues u r, LogEvent.skippingRow m]) hpost
      rw [hfin]
      simp
    · rw [hcommit u hu, runTableLoop_all_ok u (env.rowsOf u) [] lg0 (hothers u hu heq)]
      simp [heq]
  refine ⟨concatMap (fun u =>
      ((fun u => if u = t then post.map Prod.fst else (env.rowsOf u).map Prod.fst) u).map
        (fun rr => (u, rr))) migrateTables,
    concatMap (fun u =>
      if u = t then
        [LogEvent.failedInsertValues t r, LogEvent.skippingRow m, LogEvent.migratedTable t]
      else [LogEvent.migratedTable u]) migrateTables, ?_, ?_, ?_⟩
  · rw [migrate_eq_loop, migrateLoop_collect env _ _ migrateTables [] [] hrun]
    simp
  · rw [committedFor_concatMap _ t migrateTables hnodup ht]
    simp
  · rw [skipMsgCount, skipFilter_concatMap _ t migrateTables hnodup ht ?hblocks]
    · simp [isSkipNaming]
    case hblocks =>
      intro u hu hne
      simp [hne, isSkipNaming]

/-- Witness for the amended C1: `client` has two rows, the first violates
a foreign key; the run commits exactly the one row after the failure and
logs one skip message naming `client`. -/
theorem migrate_single_fk_commits_suffix_witness :
    ∃ committed lg, migrate exEnvC1w = .ok committed lg
      ∧ committedFor committed "client" = [7]
      ∧ skipMsgCount lg "client" = 1 := by
  have h := migrate_single_fk_commits_suffix exEnvC1w "client" [] [((7 : Nat), .ok)] 5
    fkViolationText (by decide) (by decide) (by decide) (by decide) (by decide)
    (by decide) (by decide)
  simpa using h

/-- C4 is false in its exit clause: a failing `DELETE FROM action` rolls
the whole reset transaction back (no table remains cleared) but `resetDB`
returns normally — no `log.Fatalf`, hence no non-zero exit from the reset
stage itself. -/
theorem reset_delete_error_counterexample :
    resetLoop resetEnvBad resetTables = .rolledBack "action" "database is locked"
  ∧ resetCleared (.rolledBack "action" "database is locked") = []
  ∧ resetFatalExit (.rolledBack "action" "database is locked") = false := by
  decide

/-- C4 (amended): in the reset loop a sequence-reset error containing
"no such table" is tolerated (processing continues, nothing rolled back),
while a `DELETE` error or any other sequence-reset error aborts the reset
with a rollback of the whole transaction (no table remains cleared) — but
through the `log.Printf` + `return` path, so `resetDB` itself does not
exit the process with a non-zero status. -/
theorem reset_error_policy (env : ResetEnv) (t : String) (ts : List String) (m : String) :
    (env.deleteResult t = .ok → env.seqResult t = .err m →
      strContains m noSuchTableText = true →
      resetLoop env (t :: ts) = resetLoop env ts)
  ∧ (env.deleteResult t = .err m →
      resetLoop env (t :: ts) = .rolledBack t m
        ∧ resetCleared (.rolledBack t m) = [] ∧ resetFatalExit (.rolledBack t m) = false)
  ∧ (env.deleteResult t = .ok → env.seqResult t = .err m →
      strContains m noSuchTableText = false →
      resetLoop env (t :: ts) = .rolledBack t m
        ∧ resetCleared (.rolledBack t m) = [] ∧ resetFatalExit (.rolledBack t m) = false) := by
  refine ⟨?_, ?_, ?_⟩
  · intro h1 h2 h3
    simp [resetLoop, h1, h2, h3]
  · intro h1
    exact ⟨by simp [resetLoop, h1], rfl, rfl⟩
  · intro h1 h2 h3
    exact ⟨by simp [resetLoop, h1, h2, h3], rfl, rfl⟩

/-- Witness for the amended C4: a tolerated missing-sequence error and a
fatal deletion error, at concrete environments. -/
theorem reset_error_policy_witness :
    (resetLoop resetEnvTol ["api_key", "client"] = resetLoop resetEnvTol ["client"])
  ∧ (resetLoop resetEnvBad ["action"] = .rolledBack "action" "database is locked"
      ∧ resetCleared (.rolledBack "action" "database is locked") = []
      ∧ resetFatalExit (.rolledBack "action" "database is locked") = false) :=
  ⟨(reset_error_policy resetEnvTol "api_key" ["client"] "no such table: sqlite_sequence").1
      (by decide) (by decide) (by decide),
   (reset_error_policy resetEnvBad "action" [] "database is locked").2.1 (by decide)⟩

/-- C5: the imports register exactly the `postgres` and `sqlite3` drivers;
`migrate` requests those two, but `resetDB` and `seedDB` request `sqlite`,
so every reset and every seed fails fatally at `sql.Open` before executing
any SQL against the store. -/
theorem sqlite_driver_not_registered :
    registeredDrivers = ["postgres", "sqlite3"]
  ∧ migrateSourceDriver = "sqlite3" ∧ migrateDestDriver = "postgres"
  ∧ resetDriver = "sqlite" ∧ seedDriver = "sqlite"
  ∧ registeredDrivers.contains "sqlite" = false
  ∧ sqlOpen migrateSourceDriver = .ok () ∧ sqlOpen migrateDestDriver = .ok ()
  ∧ (∀ env : ResetEnv,
      resetDB env = .fatalOpen "sql: unknown driver \"sqlite\" (forgotten import?)"
        ∧ resetExecutedSQL env = [])
  ∧ (∀ (env : SeedEnv) (p1 p2 : String),
      (seedDB env p1 p2).executedSQL = [] ∧ seedFatalExit (seedDB env p1 p2).result = true)
  ∧ (∀ (env : SeedEnv) (p1 p2 script : String), env.readFile p1 = .ok script →
      (seedDB env p1 p2).result =
        .fatalOpen "sql: unknown driver \"sqlite\" (forgotten import?)") := by
  refine ⟨rfl, rfl, rfl, rfl, rfl, by decide, rfl, rfl, ?_, ?_, ?_⟩
  · intro env
    exact ⟨rfl, rfl⟩
  · intro env p1 p2
    cases h : env.readFile p1 with
    | error m => simp [seedDB, h, seedFatalExit]
    | ok script => simp [seedDB, h, seedFatalExit, seedDriver, sqlOpen_sqlite]
  · intro env p1 p2 script h
    simp [seedDB, h, seedDriver, sqlOpen_sqlite]

/-- Witness for C5: a concrete seed environment with a readable script
still dies at the connection open. -/
theorem sqlite_driver_not_registered_witness :
    (seedDB ⟨fun _ => .ok "INSERT INTO users VALUES (1);", fun _ => .ok, .ok⟩
        "seed.sql" "app.db").result =
      .fatalOpen "sql: unknown driver \"sqlite\" (forgotten import?)" :=
  sqlite_driver_not_registered.2.2.2.2.2.2.2.2.2.2
    ⟨fun _ => .ok "INSERT INTO users VALUES (1);", fun _ => .ok, .ok⟩
    "seed.sql" "app.db" "INSERT INTO users VALUES (1);" rfl

/-- C6: if any fragment of the seed script fails to execute, the seed loop
aborts with that error — the rollback branch of the single transaction —
and no statement of the script becomes durable. -/
theorem seed_failure_commits_nothing (exec : String → ExecResult) (commitRes : ExecResult)
    (script : String)
    (h : ∃ c ∈ stringsSplitSemi script, (exec c).isOk = false) :
    (∃ m, seedLoop exec (stringsSplitSemi script) = .error m)
      ∧ seedCommitted exec commitRes script = [] := by
  obtain ⟨m, hm⟩ := seedLoop_error_of_mem exec (stringsSplitSemi script) h
  exact ⟨⟨m, hm⟩, by simp [seedCommitted, hm]⟩

/-- Witness for C6: a script whose second fragment is invalid seeds
nothing. -/
theorem seed_failure_commits_nothing_witness :
    (∃ m, seedLoop seedEnvBad.execResult
        (stringsSplitSemi "INSERT INTO users VALUES (1);BAD") = .error m)
      ∧ seedCommitted seedEnvBad.execResult .ok "INSERT INTO users VALUES (1);BAD" = [] :=
  seed_failure_commits_nothing seedEnvBad.execResult .ok "INSERT INTO users VALUES (1);BAD"
    (by decide)

/-- C8 is false in its empty-fragment clause: the seed loop passes every
fragment produced by the split to `tx.Exec`, including the empty fragment
after a trailing `;` — it does not restrict itself to non-empty ones. -/
theorem seed_empty_fragment_executed_counterexample :
    stringsSplitSemi "INSERT INTO users VALUES (1);" = ["INSERT INTO users VALUES (1)", ""]
  ∧ seedExecuted (fun _ => .ok) (stringsSplitSemi "INSERT INTO users VALUES (1);") =
      ["INSERT INTO users VALUES (1)", ""]
  ∧ ¬ seedExecuted (fun _ => .ok) (stringsSplitSemi "INSERT INTO users VALUES (1);") =
      (stringsSplitSemi "INSERT INTO users VALUES (1);").filter (fun c => !(c == "")) := by
  decide

/-- C8 (amended): the seed engine splits the script at every `;` and, when
every fragment executes successfully, passes every fragment — empty ones
included — to `tx.Exec`, in order, inside the single transaction. -/
theorem seed_executes_every_fragment (exec : String → ExecResult) (script : String)
    (h : ∀ c ∈ stringsSplitSemi script, exec c = .ok) :
    seedExecuted exec (stringsSplitSemi script) = stringsSplitSemi script :=
  seedExecuted_all_ok exec (stringsSplitSemi script) h

/-- Witness for the amended C8 on a script with a trailing `;`. -/
theorem seed_executes_every_fragment_witness :
    seedExecuted (fun _ => .ok) (stringsSplitSemi "a;b;") = stringsSplitSemi "a;b;" ∧
    stringsSplitSemi "a;b;" = ["a", "b", ""] :=
  ⟨seed_executes_every_fragment (fun _ => .ok) "a;b;" (by decide), by decide⟩

/-- C10: `main`'s `db:seed` case runs the seed engine alone, but hands
`flag.Arg(1)` to `seedDB` as the seed-script path and `flag.Arg(2)` as the
database path, while the tool's own usage text documents
`db:seed <path-to-database> <seed-path>`; invoked as documented, the
program tries to read the database-position argument as the SQL script. -/
theorem dbseed_argument_order_bug :
    strContains usageSeedLine "<path-to-database> <seed-path>" = true
  ∧ mainDbSeed seedEnvBug "store.db" "seed.sql" =
      .ran ⟨"store.db", none, [], .fatalRead "open store.db: no such file or directory"⟩
  ∧ mainDbSeed seedEnvBug "seed.sql" "store.db" =
      .ran ⟨"seed.sql", some ("sqlite", "store.db"), [],
        .fatalOpen "sql: unknown driver \"sqlite\" (forgotten import?)"⟩ := by
  decide

end Autobrrctl
